import Mathlib

/-!
Shallow embedding of the gizmo bilibili dynamic-dispatch tracker:
`scripts/dispatch_bilibili_dynamic.py` together with the parts of
`src/gizmo/bilibili/models.py` and `src/gizmo/bilibili/client.py` that the
Updator state machines depend on.

Modelling conventions:
  * Unix timestamps (`time.time()`, `pub_ts`, `ctime`) are `Int`.
  * A Python generator consumed by a `for` loop is modelled as a `List`;
    early `break` is structural recursion that stops consuming the list.
  * Python exceptions (AttributeError on a `None` dereference, exceptions
    raised by a remote fetch) are modelled with `Except String`.
  * The notification sink (`Handler.handle`) is modelled by recording the
    messages an update delivers, in delivery order, as a `List Msg`.
-/

deriving instance DecidableEq for Except

namespace Gizmo

/-- Embeds `models.DynamicTagModule` (pydantic model with a single `text` field). -/
structure DynamicTagModule where
  text : String
  deriving DecidableEq

/-- Embeds `models.DynamicAuthorModule`: author name, member id, publish timestamp. -/
structure DynamicAuthorModule where
  name : String
  mid : Int
  pub_ts : Int
  deriving DecidableEq

/-- Embeds `models.DynamicDynamicModuleDesc`. -/
structure DynamicDynamicModuleDesc where
  text : String
  deriving DecidableEq

/-- Embeds `models.DynamicDynamicModule`: `desc` is Optional. -/
structure DynamicDynamicModule where
  desc : Option DynamicDynamicModuleDesc
  deriving DecidableEq

/-- Embeds `models.DynamicBasic`. -/
structure DynamicBasic where
  comment_id_str : String
  comment_type : Int
  rid_str : String
  is_only_fans : Bool
  deriving DecidableEq

/-- Embeds `models.DynamicModules`; `module_tag` is Optional with default `None`. -/
structure DynamicModules where
  module_author : DynamicAuthorModule
  module_dynamic : DynamicDynamicModule
  module_tag : Option DynamicTagModule
  deriving DecidableEq

/-- Embeds `models.Dynamic` (a feed item / post). -/
structure Dynamic where
  basic : DynamicBasic
  id_str : String
  modules : DynamicModules
  visible : Bool
  deriving DecidableEq

/-- Embeds `Dynamic.is_top`: `self.modules.module_tag.text == "置顶"`.
In Python, when `module_tag` is `None` (its declared default), the attribute
access `None.text` raises `AttributeError`; that failure is the `.error` case. -/
def Dynamic.is_top (d : Dynamic) : Except String Bool :=
  match d.modules.module_tag with
  | none => .error "AttributeError: NoneType object has no attribute text"
  | some tag => .ok (tag.text = "置顶")

/-- Embeds `Dynamic.mid`: `self.modules.module_author.mid`. -/
def Dynamic.mid (d : Dynamic) : Int :=
  d.modules.module_author.mid

/-- Embeds `Dynamic.event_unix_time`: `self.modules.module_author.pub_ts`. -/
def Dynamic.event_unix_time (d : Dynamic) : Int :=
  d.modules.module_author.pub_ts

/-- Embeds `models.Member` (a comment author). -/
structure Member where
  mid : Int
  uname : String
  avatar : String
  deriving DecidableEq

/-- Embeds `models.Content` (comment body). -/
structure Content where
  message : String
  max_line : Int
  deriving DecidableEq

/-- Embeds `models.Reply` (a comment on a dynamic, or a reply to a comment). -/
structure Reply where
  rpid : Int
  oid : Int
  type : Int
  mid : Int
  root : Int
  parent : Int
  dialog : Int
  ctime : Int
  member : Member
  content : Content
  deriving DecidableEq

/-- Embeds `Reply.event_unix_time`: `self.ctime`. -/
def Reply.event_unix_time (r : Reply) : Int :=
  r.ctime

/-- A message delivered to the notification sink.  `Handler.handle` dispatches
on the runtime type of its argument: a `Dynamic`, a `Reply` (comment), or a
`(comment, reply)` tuple; this inductive is the closed variant of that open
dispatch, recording what an update hands to `self._handler.handle`. -/
inductive Msg where
  | dynamic (d : Dynamic)
  | comment (c : Reply)
  | commentReply (c : Reply) (r : Reply)
  deriving DecidableEq

/-- The event time of the payload carried by a sink message (for the pair case,
the reply's time); used only to state delivery-order properties. -/
def Msg.eventTime : Msg → Int
  | .dynamic d => d.event_unix_time
  | .comment c => c.event_unix_time
  | .commentReply _ r => r.event_unix_time

namespace DynamicUpdator

/-- Embeds `DynamicUpdator._is_new_dynamic`: new iff the stored
`_latest_dynamic` is `None` or the item's event time strictly exceeds it. -/
def isNewDynamic (latest : Option Dynamic) (d : Dynamic) : Bool :=
  match latest with
  | none => true
  | some l => decide (d.event_unix_time > l.event_unix_time)

/-- Embeds the `for dynamic in self._client.member_dynamics(...)` loop of
`DynamicUpdator.update`: first the 30-minute lookback cutoff (which `break`s),
then the novelty test (which only decides whether to append — a non-new item
does NOT stop this loop).  Returns the collected `new_dynamics` (newest first)
together with the number of items consumed from the feed. -/
def walk (now : Int) (latest : Option Dynamic) : List Dynamic → List Dynamic × Nat
  | [] => ([], 0)
  | d :: ds =>
    if now - d.event_unix_time ≥ 30 * 60 then ([], 1)
    else if isNewDynamic latest d then
      (d :: (walk now latest ds).1, (walk now latest ds).2 + 1)
    else
      ((walk now latest ds).1, (walk now latest ds).2 + 1)

/-- Embeds `DynamicUpdator.update`: walk the member feed, set
`_latest_dynamic := new_dynamics[0]` when non-empty, then hand the collected
items to the sink in reversed (oldest-first) order.  The state is the
`_latest_dynamic` high-water mark; the second component is the delivery list. -/
def update (now : Int) (feed : List Dynamic) (latest : Option Dynamic) :
    Option Dynamic × List Msg :=
  let new_dynamics := (walk now latest feed).1
  (match new_dynamics with
   | [] => latest
   | d :: _ => some d,
   new_dynamics.reverse.map Msg.dynamic)

/-- A run of consecutive `update` ticks over a fixed feed: one tick per entry
of `nows` (the value of `int(time.time())` at that tick).  Returns the final
high-water mark and the concatenation of everything delivered to the sink. -/
def run (feed : List Dynamic) (latest : Option Dynamic) : List Int → Option Dynamic × List Msg
  | [] => (latest, [])
  | now :: nows =>
    ((run feed (update now feed latest).1 nows).1,
     (update now feed latest).2 ++ (run feed (update now feed latest).1 nows).2)

/-- The high-water mark at the start of tick `k` of a run. -/
def tickStart (feed : List Dynamic) (latest : Option Dynamic) (nows : List Int) (k : Nat) :
    Option Dynamic :=
  (run feed latest (nows.take k)).1

/-- Variant of the `DynamicUpdator.update` walk over a feed whose items may
fail to be fetched: pulling the next item from `member_dynamics` can raise
(network error, validation error), modelled as an `Except.error` element.
The Updator has no try/except, so the error propagates. -/
def walkE (now : Int) (latest : Option Dynamic) :
    List (Except String Dynamic) → Except String (List Dynamic × Nat)
  | [] => .ok ([], 0)
  | .error e :: _ => .error e
  | .ok d :: ds =>
    if now - d.event_unix_time ≥ 30 * 60 then .ok ([], 1)
    else do
      let p ← walkE now latest ds
      if isNewDynamic latest d then .ok (d :: p.1, p.2 + 1)
      else .ok (p.1, p.2 + 1)

/-- `DynamicUpdator.update` over a fallible feed: a fetch error aborts the
whole tick before `_latest_dynamic` is reassigned (line 98 runs only after the
loop finishes normally), so on error no new state and no deliveries exist. -/
def updateE (now : Int) (feed : List (Except String Dynamic)) (latest : Option Dynamic) :
    Except String (Option Dynamic × List Msg) := do
  let p ← walkE now latest feed
  .ok (match p.1 with
       | [] => latest
       | d :: _ => some d,
       p.1.reverse.map Msg.dynamic)

end DynamicUpdator

/-- Embeds `DynamicAuthorCommentUpdator._is_new_comment` and the structurally
identical `CommentAuthorReplyUpdator._is_new_comment`: new iff the stored
`_latest_comment` is `None` or the comment's event time strictly exceeds it. -/
def isNewComment (latest : Option Reply) (c : Reply) : Bool :=
  match latest with
  | none => true
  | some l => decide (c.event_unix_time > l.event_unix_time)

namespace DynamicAuthorCommentUpdator

/-- Embeds the loop of `DynamicAuthorCommentUpdator.update`: first the novelty
test (`break` on a non-new comment), then the 30-minute cutoff (`break`), then
the author filter `comment.mid == self._dynamic.mid()` deciding the append.
Returns collected `new_comments` (newest first) and the consumed count. -/
def walk (now : Int) (dynMid : Int) (latest : Option Reply) : List Reply → List Reply × Nat
  | [] => ([], 0)
  | c :: cs =>
    if !(isNewComment latest c) then ([], 1)
    else if now - c.event_unix_time ≥ 30 * 60 then ([], 1)
    else if c.mid == dynMid then
      (c :: (walk now dynMid latest cs).1, (walk now dynMid latest cs).2 + 1)
    else
      ((walk now dynMid latest cs).1, (walk now dynMid latest cs).2 + 1)

/-- Embeds `DynamicAuthorCommentUpdator.update`: walk the comment feed of the
tracked dynamic, set `_latest_comment := new_comments[0]` when non-empty, then
hand the collected comments to the sink in reversed (oldest-first) order. -/
def update (now : Int) (dynMid : Int) (feed : List Reply) (latest : Option Reply) :
    Option Reply × List Msg :=
  let new_comments := (walk now dynMid latest feed).1
  (match new_comments with
   | [] => latest
   | c :: _ => some c,
   new_comments.reverse.map Msg.comment)

end DynamicAuthorCommentUpdator

namespace CommentAuthorReplyUpdator

/-- Embeds the loop of `CommentAuthorReplyUpdator.update`: for every new
in-window comment, fetch its replies (`crf`) and collect the `(comment, reply)`
pairs whose reply author matches the tracked dynamic's author. -/
def walk (now : Int) (dynMid : Int) (latest : Option Reply) (crf : Reply → List Reply) :
    List Reply → List (Reply × Reply)
  | [] => []
  | c :: cs =>
    if !(isNewComment latest c) then []
    else if now - c.event_unix_time ≥ 30 * 60 then []
    else
      ((crf c).filter (fun r => r.mid == dynMid)).map (fun r => (c, r))
        ++ walk now dynMid latest crf cs

/-- Embeds `CommentAuthorReplyUpdator.update`: collect the pairs and set
`_latest_comment := new_comment_replies[0][0]` when non-empty.  The method
body contains NO call to `self._handler.handle`, so the delivery list is
empty: the collected pairs are dropped. -/
def update (now : Int) (dynMid : Int) (feed : List Reply) (crf : Reply → List Reply)
    (latest : Option Reply) : Option Reply × List Msg :=
  let new_comment_replies := walk now dynMid latest crf feed
  (match new_comment_replies with
   | [] => latest
   | p :: _ => some p.1,
   [])

end CommentAuthorReplyUpdator

namespace ApiClient

/-- One API response of the paged `GET /x/v2/reply/reply` loop inside
`ApiClient.comment_replies`: the result `code` and, when present, the
validated `data.replies` list of that page. -/
structure ReplyPage where
  code : Int
  replies : Option (List Reply)
  deriving DecidableEq

/-- Embeds `ApiClient.comment_replies`: the `for i in itertools.count(1)` page
loop, given the successive page responses.  A non-zero `code` is logged and
the generator RETURNS (the failure is swallowed, not raised); missing data
likewise returns; an empty reply list ends the pagination; otherwise the
page's replies are yielded and the next page is fetched. -/
def comment_replies : List ReplyPage → List Reply
  | [] => []
  | p :: ps =>
    if p.code ≠ 0 then []
    else match p.replies with
      | none => []
      | some replies =>
        if replies.isEmpty then []
        else replies ++ comment_replies ps

end ApiClient

/-- A deterministic model of the `ApiClient` collaborator as seen by
`MemberUpdator` and its sub-Updators: `member_dynamics mid` is the (fixed)
newest-first member feed, `dynamic_replies d` the comment feed of dynamic `d`,
`comment_replies c` the reply feed of comment `c` (already flattened; the
page-level behavior of `ApiClient.comment_replies` is modelled separately). -/
structure ClientModel where
  member_dynamics : Int → List Dynamic
  dynamic_replies : Dynamic → List Reply
  comment_replies : Reply → List Reply

/-- State of a `DynamicAuthorCommentUpdator` object: the `_dynamic` it was
constructed with (`MemberUpdator` can pass `None` here) and its
`_latest_comment` high-water mark. -/
structure DacState where
  dynamic : Option Dynamic
  latest_comment : Option Reply
  deriving DecidableEq

/-- State of a `CommentAuthorReplyUpdator` object. -/
structure CarState where
  dynamic : Option Dynamic
  latest_comment : Option Reply
  deriving DecidableEq

/-- `DynamicAuthorCommentUpdator.update` as invoked on a stored object: when
`_dynamic` is `None`, iterating `self._client.dynamic_replies(self._dynamic)`
dereferences `dynamic.basic` on `None` and raises. -/
def DacState.update (now : Int) (client : ClientModel) (s : DacState) :
    Except String (DacState × List Msg) :=
  match s.dynamic with
  | none => .error "AttributeError: NoneType object has no attribute basic"
  | some dyn =>
    let p := DynamicAuthorCommentUpdator.update now dyn.mid (client.dynamic_replies dyn)
        s.latest_comment
    .ok ({ s with latest_comment := p.1 }, p.2)

/-- `CommentAuthorReplyUpdator.update` as invoked on a stored object; same
`None`-dynamic failure mode as `DacState.update`. -/
def CarState.update (now : Int) (client : ClientModel) (s : CarState) :
    Except String (CarState × List Msg) :=
  match s.dynamic with
  | none => .error "AttributeError: NoneType object has no attribute basic"
  | some dyn =>
    let p := CommentAuthorReplyUpdator.update now dyn.mid (client.dynamic_replies dyn)
        client.comment_replies s.latest_comment
    .ok ({ s with latest_comment := p.1 }, p.2)

namespace MemberUpdator

/-- State of a `MemberUpdator` object: the tracked pinned dynamic
`_top_dynamic`, the member-feed Updator's mark, and the two dependent
Updators (both `None` right after `__init__`). -/
structure State where
  top_dynamic : Option Dynamic
  dynamic_latest : Option Dynamic
  dynamic_author_comment : Option DacState
  comment_author_reply : Option CarState
  deriving DecidableEq

/-- Embeds `MemberUpdator._get_top_dynamic`: scan the member feed from newest
and return the first dynamic whose `is_top()` is true; `None` when the feed is
exhausted.  `is_top` itself can raise (missing `module_tag`), which propagates. -/
def getTopDynamic : List Dynamic → Except String (Option Dynamic)
  | [] => .ok none
  | d :: ds => do
    let b ← d.is_top
    if b then .ok (some d) else getTopDynamic ds

/-- Embeds `MemberUpdator.__init__`: build the member-feed Updator with an
empty mark, resolve `_top_dynamic` once, leave both dependents `None`. -/
def init (client : ClientModel) (mid : Int) : Except String State := do
  let top ← getTopDynamic (client.member_dynamics mid)
  .ok { top_dynamic := top, dynamic_latest := none,
        dynamic_author_comment := none, comment_author_reply := none }

/-- The Python comparison `new_top_dynamic != self._top_dynamic.id_str` at
line 203 compares an `Optional[Dynamic]` with a `str`: a pydantic `BaseModel`
returns `NotImplemented` against a non-model, so equality falls back to
identity and is always false (and `None != str` is true); hence the `!=` is
`True` for every pair of operands. -/
def pyNeOptDynamicStr (_ : Option Dynamic) (_ : String) : Bool :=
  true

/-- Embeds `MemberUpdator.update` for one tick: re-resolve the top dynamic,
evaluate `self._top_dynamic.id_str` (raises when `_top_dynamic` is `None`),
rebuild both dependent Updators when the (always-true) comparison fires, then
run the member-feed Updator and both dependents in order, concatenating what
each hands to the sink. -/
def update (now : Int) (mid : Int) (client : ClientModel) (s : State) :
    Except String (State × List Msg) := do
  let new_top ← getTopDynamic (client.member_dynamics mid)
  let old ← (match s.top_dynamic with
    | none => Except.error "AttributeError: NoneType object has no attribute id_str"
    | some d => Except.ok d)
  let s₁ :=
    if pyNeOptDynamicStr new_top old.id_str then
      { s with top_dynamic := new_top,
               dynamic_author_comment := some ⟨new_top, none⟩,
               comment_author_reply := some ⟨new_top, none⟩ }
    else s
  let pd := DynamicUpdator.update now (client.member_dynamics mid) s₁.dynamic_latest
  let dac ← (match s₁.dynamic_author_comment with
    | none => Except.error "AttributeError: NoneType object has no attribute update"
    | some dac => Except.ok dac)
  let pc ← dac.update now client
  let car ← (match s₁.comment_author_reply with
    | none => Except.error "AttributeError: NoneType object has no attribute update"
    | some car => Except.ok car)
  let pr ← car.update now client
  .ok ({ s₁ with dynamic_latest := pd.1,
                 dynamic_author_comment := some pc.1,
                 comment_author_reply := some pr.1 },
       pd.2 ++ pc.2 ++ pr.2)

end MemberUpdator

/-! Concrete feed items used as inputs for witnesses and counterexamples. -/

/-- A concrete `Dynamic` with the given id, author mid, publish time and
optional tag text. -/
def mkDynamic (id_str : String) (mid pub_ts : Int) (tag : Option String) : Dynamic :=
  { basic := { comment_id_str := id_str, comment_type := 17, rid_str := id_str,
               is_only_fans := false },
    id_str := id_str,
    modules := { module_author := { name := "author", mid := mid, pub_ts := pub_ts },
                 module_dynamic := { desc := some { text := "body" } },
                 module_tag := tag.map (fun t => { text := t }) },
    visible := true }

/-- A concrete `Reply` with the given reply id, author mid and creation time. -/
def mkReply (rpid mid ctime : Int) : Reply :=
  { rpid := rpid, oid := 1, type := 17, mid := mid, root := 0, parent := 0,
    dialog := 0, ctime := ctime,
    member := { mid := mid, uname := "u", avatar := "" },
    content := { message := "msg", max_line := 0 } }

/-- The newest-first ordering of a member feed: event times strictly decrease
along the list (the remote API's natural page order, assumed by the walk). -/
def newestFirst (l : List Dynamic) : Prop :=
  List.Pairwise (fun a b => b.event_unix_time < a.event_unix_time) l

instance (l : List Dynamic) : Decidable (newestFirst l) :=
  inferInstanceAs (Decidable (List.Pairwise _ l))

/-- The newest-first ordering of a comment feed. -/
def newestFirstR (l : List Reply) : Prop :=
  List.Pairwise (fun a b => b.event_unix_time < a.event_unix_time) l

instance (l : List Reply) : Decidable (newestFirstR l) :=
  inferInstanceAs (Decidable (List.Pairwise _ l))

/-! Concrete inputs for witnesses and counterexamples. -/

/-- A dynamic carrying the pinned tag, author 5, published at 190. -/
def exPinned : Dynamic := mkDynamic "pinned" 5 190 (some "置顶")

/-- A dynamic carrying a non-pinned tag. -/
def exPlain : Dynamic := mkDynamic "plain" 5 100 (some "日常")

/-- A dynamic with no tag module at all (`module_tag is None`, the model's
declared default). -/
def exUntagged : Dynamic := mkDynamic "untagged" 5 180 none

/-- High-water-mark dynamic at time 10. -/
def exM10 : Dynamic := mkDynamic "m10" 5 10 none

/-- Feed dynamic at time 20 (newer than `exM10`, but 1800 seconds old at
tick time 1820). -/
def exD20 : Dynamic := mkDynamic "d20" 5 20 none

/-- High-water-mark dynamic at time 100. -/
def exM100 : Dynamic := mkDynamic "m100" 5 100 none

/-- Feed dynamics at times 110, 90 and 80 (newest first). -/
def exDA110 : Dynamic := mkDynamic "a110" 5 110 none

/-- Feed dynamic at time 90 (not new relative to `exM100`). -/
def exDB90 : Dynamic := mkDynamic "b90" 5 90 none

/-- Feed dynamic at time 80. -/
def exDC80 : Dynamic := mkDynamic "c80" 5 80 none

/-- A comment authored by member 5 (the tracked author) at time 150. -/
def exCm1 : Reply := mkReply 1 5 150

/-- A comment authored by member 9 (not the tracked author) at time 150. -/
def exC3 : Reply := mkReply 3 9 150

/-- A reply authored by member 5 (the tracked author) at time 160. -/
def exR31 : Reply := mkReply 31 5 160

/-- A reply authored by member 9 at time 161. -/
def exR32 : Reply := mkReply 32 9 161

/-- A comment (rpid 11) whose reply fetch will fail at the API level. -/
def exCa : Reply := mkReply 11 8 100

/-- A comment (rpid 12) whose reply fetch succeeds. -/
def exCb : Reply := mkReply 12 9 90

/-- Reply feed: comment 3 has two replies, one by the tracked author. -/
def exCrf : Reply → List Reply :=
  fun c => if c.rpid == 3 then [exR31, exR32] else []

/-- Page responses for `ApiClient.comment_replies`: the fetch for comment 11
fails with API code -352; the fetch for any other comment succeeds with a
single page containing `exR31`. -/
def exPages : Reply → List ApiClient.ReplyPage :=
  fun c => if c.rpid == 11 then [⟨-352, none⟩] else [⟨0, some [exR31]⟩]

/-- A client whose member feed always resolves the same pinned dynamic and
whose comment feed contains one comment by the tracked author. -/
def exClient1 : ClientModel :=
  { member_dynamics := fun _ => [exPinned],
    dynamic_replies := fun _ => [exCm1],
    comment_replies := fun _ => [] }

/-- A client whose member feed no longer contains any pinned dynamic. -/
def exClient2 : ClientModel :=
  { member_dynamics := fun _ => [exPlain],
    dynamic_replies := fun _ => [exCm1],
    comment_replies := fun _ => [] }

/-- `MemberUpdator` state right after `__init__` against `exClient1`. -/
def exS0 : MemberUpdator.State :=
  { top_dynamic := some exPinned, dynamic_latest := none,
    dynamic_author_comment := none, comment_author_reply := none }

/-- Expected `MemberUpdator` state after the first tick against `exClient1`:
marks advanced to `exPinned` and `exCm1`. -/
def exS1 : MemberUpdator.State :=
  { top_dynamic := some exPinned, dynamic_latest := some exPinned,
    dynamic_author_comment := some ⟨some exPinned, some exCm1⟩,
    comment_author_reply := some ⟨some exPinned, none⟩ }

/-- Feed dynamic at time 21 (29 minutes 59 seconds old at tick time 1820). -/
def exD21 : Dynamic := mkDynamic "d21" 5 21 none

/-- A comment at time 20 by the tracked author (exactly 30 minutes old at
tick time 1820). -/
def exCm20 : Reply := mkReply 4 5 20

/-- A comment at time 21 by the tracked author (29 minutes 59 seconds old at
tick time 1820). -/
def exCm21 : Reply := mkReply 5 5 21

/-- A comment at time 140 by the tracked author, usable as a high-water mark. -/
def exCm140 : Reply := mkReply 2 5 140

end Gizmo

namespace Gizmo

/-- Claim C1: the reply-tracking Updator identifies every reply to a new
comment whose author matches the tracked dynamic's author — the walk collects
exactly the pair `(exC3, exR31)` here — yet `CommentAuthorReplyUpdator.update`
contains no call to `self._handler.handle`, so nothing is emitted to the
notification sink: the delivery list of the tick is `[]`, although the claim
requires the pair to be delivered. -/
theorem c1_pairs_collected_but_never_emitted :
    CommentAuthorReplyUpdator.walk 200 5 none exCrf [exC3] = [(exC3, exR31)]
    ∧ CommentAuthorReplyUpdator.update 200 5 [exC3] exCrf none = (some exC3, []) := by
  constructor <;> decide

/-- Claim C2: `MemberUpdator.update` compares `new_top_dynamic` (an
`Optional[Dynamic]`) against `self._top_dynamic.id_str` (a `str`), a
comparison that is true for every pair of operands, so the dependent Updators
are discarded and rebuilt with empty high-water marks on EVERY tick — here the
pinned dynamic resolves identically on both ticks, tick 1 advances the comment
Updator's mark to `exCm1`, and tick 2 nevertheless starts from a fresh mark
and re-delivers `Msg.comment exCm1` to the sink. -/
theorem c2_rebuild_despite_unchanged_pin :
    MemberUpdator.getTopDynamic (exClient1.member_dynamics 5) = .ok (some exPinned)
    ∧ MemberUpdator.update 200 5 exClient1 exS0
        = .ok (exS1, [Msg.dynamic exPinned, Msg.comment exCm1])
    ∧ exS1.dynamic_author_comment = some ⟨some exPinned, some exCm1⟩
    ∧ MemberUpdator.update 230 5 exClient1 exS1
        = .ok (exS1, [Msg.comment exCm1]) := by
  refine ⟨by decide, by decide, by decide, by decide⟩

/-- Claim C4: when the previously tracked pinned dynamic disappears from the
feed (`_get_top_dynamic` resolves to `None`), the tick does not tear the
dependent Updators down: it rebuilds them bound to `None` and then
`DynamicAuthorCommentUpdator.update` dereferences that `None`
(`dynamic.basic` inside `dynamic_replies`), so the whole tick raises
`AttributeError` instead of running quietly without comment notifications. -/
theorem c4_unpin_raises_instead_of_teardown :
    MemberUpdator.getTopDynamic (exClient2.member_dynamics 5) = .ok none
    ∧ MemberUpdator.update 260 5 exClient2 exS1
        = .error "AttributeError: NoneType object has no attribute basic" := by
  constructor <;> decide

/-- Claim C9: `MemberUpdator._get_top_dynamic` does scan the feed from newest
and return the first dynamic flagged pinned, but when it reaches a dynamic
whose `module_tag` is `None` (the field's declared default), `is_top`
dereferences `None.text` and raises `AttributeError` — it does not return
`None` quietly. -/
theorem c9_top_scan_raises_on_untagged :
    MemberUpdator.getTopDynamic [exPlain, exPinned] = .ok (some exPinned)
    ∧ MemberUpdator.getTopDynamic [exPlain] = .ok none
    ∧ MemberUpdator.getTopDynamic [exUntagged]
        = .error "AttributeError: NoneType object has no attribute text" := by
  refine ⟨by decide, by decide, by decide⟩

/-- Claim C3, counterexample: `exD20` has event time 20, strictly above the
high-water mark `exM10` (time 10) at tick start, yet a run consisting of one
tick at time 1820 delivers it zero times — the 30-minute lookback cutoff
(1820 - 20 = 1800 seconds) stops the walk — contradicting "delivered exactly
once across the whole run". -/
theorem c3_cex_new_item_beyond_lookback_never_delivered :
    exD20.event_unix_time > exM10.event_unix_time
    ∧ ((DynamicUpdator.run [exD20] (some exM10) [1820]).2).count (Msg.dynamic exD20) = 0 := by
  constructor <;> decide

/-- Claim C5, counterexample: with high-water mark `exM100` (time 100), the
second feed item `exDB90` is not new, yet `DynamicUpdator`'s walk consumes all
three items of the feed (consumed count 3, not 2): unlike the comment walks,
`DynamicUpdator.update` has no `break` on the novelty test, so items after the
first non-new one ARE examined. -/
theorem c5_cex_walk_continues_past_stale_item :
    DynamicUpdator.isNewDynamic (some exM100) exDB90 = false
    ∧ (DynamicUpdator.walk 200 (some exM100) [exDA110, exDB90, exDC80]).2 = 3 := by
  constructor <;> decide

/-- Claim C8, counterexample: the reply fetch for comment `exCa` fails at the
API level (code -352, a remote-fetch failure that the client logs as
"failed"), yet the reply-tracking tick does not fail: `comment_replies`
swallows the failure as end-of-stream, the walk continues to comment `exCb`,
and the tick completes with the high-water mark advanced from `none` to
`exCb` — contradicting "the tick fails entirely and the high-water mark is
left unmodified". -/
theorem c8_cex_fetch_failure_swallowed_mark_advances :
    ((exPages exCa).any (fun p => p.code != 0)) = true
    ∧ (CommentAuthorReplyUpdator.update 200 5 [exCa, exCb]
        (fun c => ApiClient.comment_replies (exPages c)) none).1 = some exCb := by
  constructor <;> decide

/-- Every dynamic collected by the `DynamicUpdator` walk passed the novelty
test against the mark held at the start of the tick. -/
theorem walkD_isNew_of_mem (now : Int) (latest : Option Dynamic) (l : List Dynamic)
    (d : Dynamic) (hd : d ∈ (DynamicUpdator.walk now latest l).1) :
    DynamicUpdator.isNewDynamic latest d = true := by
  induction l with
  | nil => simp [DynamicUpdator.walk] at hd
  | cons a as ih =>
    simp only [DynamicUpdator.walk] at hd
    by_cases h1 : now - a.event_unix_time ≥ 30 * 60
    · rw [if_pos h1] at hd
      simp at hd
    · rw [if_neg h1] at hd
      by_cases h2 : DynamicUpdator.isNewDynamic latest a = true
      · rw [if_pos h2] at hd
        rcases List.mem_cons.1 hd with h | h
        · exact h ▸ h2
        · exact ih h
      · rw [if_neg h2] at hd
        exact ih hd

/-- The outer comment of every pair collected by the
`CommentAuthorReplyUpdator` walk passed the novelty test against the mark held
at the start of the tick. -/
theorem walkCAR_isNew_of_mem (now dynMid : Int) (latest : Option Reply)
    (crf : Reply → List Reply) (l : List Reply) (p : Reply × Reply)
    (hp : p ∈ CommentAuthorReplyUpdator.walk now dynMid latest crf l) :
    isNewComment latest p.1 = true := by
  induction l with
  | nil => simp [CommentAuthorReplyUpdator.walk] at hp
  | cons c cs ih =>
    simp only [CommentAuthorReplyUpdator.walk] at hp
    by_cases h1 : (!(isNewComment latest c)) = true
    · rw [if_pos h1] at hp
      simp at hp
    · rw [if_neg h1] at hp
      by_cases h2 : now - c.event_unix_time ≥ 30 * 60
      · rw [if_pos h2] at hp
        simp at hp
      · rw [if_neg h2] at hp
        rcases List.mem_append.1 hp with h | h
        · rcases List.mem_map.1 h with ⟨r, _, hr⟩
          have hc : p.1 = c := by rw [← hr]
          rw [hc]
          simpa using h1
        · exact ih h

/-- The list a `DynamicUpdator` walk collects is a sublist of the feed. -/
theorem walkD_sublist (now : Int) (latest : Option Dynamic) (l : List Dynamic) :
    List.Sublist (DynamicUpdator.walk now latest l).1 l := by
  induction l with
  | nil => simp [DynamicUpdator.walk]
  | cons a as ih =>
    simp only [DynamicUpdator.walk]
    by_cases h1 : now - a.event_unix_time ≥ 30 * 60
    · rw [if_pos h1]
      exact List.nil_sublist _
    · rw [if_neg h1]
      by_cases h2 : DynamicUpdator.isNewDynamic latest a = true
      · rw [if_pos h2]
        exact ih.cons₂ a
      · rw [if_neg h2]
        exact ih.cons a

/-- The list a `DynamicAuthorCommentUpdator` walk collects is a sublist of the
comment feed. -/
theorem walkC_sublist (now dynMid : Int) (latest : Option Reply) (l : List Reply) :
    List.Sublist (DynamicAuthorCommentUpdator.walk now dynMid latest l).1 l := by
  induction l with
  | nil => simp [DynamicAuthorCommentUpdator.walk]
  | cons c cs ih =>
    simp only [DynamicAuthorCommentUpdator.walk]
    by_cases h1 : (!(isNewComment latest c)) = true
    · rw [if_pos h1]
      exact List.nil_sublist _
    · rw [if_neg h1]
      by_cases h2 : now - c.event_unix_time ≥ 30 * 60
      · rw [if_pos h2]
        exact List.nil_sublist _
      · rw [if_neg h2]
        by_cases h3 : (c.mid == dynMid) = true
        · rw [if_pos h3]
          exact ih.cons₂ c
        · rw [if_neg h3]
          exact ih.cons c

/-- When no feed item is over the lookback bound, the `DynamicUpdator` walk
consumes the whole feed: the novelty test never stops it. -/
theorem walkD_consumes_all (now : Int) (latest : Option Dynamic) :
    ∀ l : List Dynamic, (∀ x ∈ l, now - x.event_unix_time < 30 * 60) →
      (DynamicUpdator.walk now latest l).2 = l.length := by
  intro l
  induction l with
  | nil => intro _; simp [DynamicUpdator.walk]
  | cons a as ih =>
    intro h
    have h1 : ¬ now - a.event_unix_time ≥ 30 * 60 := by
      have := h a (List.mem_cons_self a as)
      omega
    have h2 := ih (fun x hx => h x (List.mem_cons_of_mem a hx))
    simp only [DynamicUpdator.walk]
    rw [if_neg h1]
    by_cases h3 : DynamicUpdator.isNewDynamic latest a = true
    · rw [if_pos h3]
      simp [h2]
    · rw [if_neg h3]
      simp [h2]

/-- Claim C6 (confirmed): over a strictly newest-first feed, the messages a
single tick hands to the sink — the collected items replayed in reverse — are
strictly increasing in event time, for both the member-feed Updator and the
comment Updator. -/
theorem c6_chronological_delivery (now dynMid : Int)
    (latestD : Option Dynamic) (feedD : List Dynamic)
    (latestC : Option Reply) (feedC : List Reply)
    (hD : newestFirst feedD) (hC : newestFirstR feedC) :
    List.Pairwise (fun a b => a.eventTime < b.eventTime)
      (DynamicUpdator.update now feedD latestD).2
    ∧ List.Pairwise (fun a b => a.eventTime < b.eventTime)
      (DynamicAuthorCommentUpdator.update now dynMid feedC latestC).2 := by
  constructor
  · have hp : List.Pairwise (fun a b : Dynamic => b.event_unix_time < a.event_unix_time)
        (DynamicUpdator.walk now latestD feedD).1 :=
      List.Pairwise.sublist (walkD_sublist now latestD feedD) hD
    simp only [DynamicUpdator.update, List.pairwise_map, List.pairwise_reverse, Msg.eventTime]
    exact hp
  · have hp : List.Pairwise (fun a b : Reply => b.event_unix_time < a.event_unix_time)
        (DynamicAuthorCommentUpdator.walk now dynMid latestC feedC).1 :=
      List.Pairwise.sublist (walkC_sublist now dynMid latestC feedC) hC
    simp only [DynamicAuthorCommentUpdator.update, List.pairwise_map, List.pairwise_reverse,
      Msg.eventTime]
    exact hp

/-- Claim C6, witness at a concrete sorted feed. -/
theorem c6_chronological_delivery_witness :
    List.Pairwise (fun a b => a.eventTime < b.eventTime)
      (DynamicUpdator.update 200 [exDA110, exDB90] none).2
    ∧ List.Pairwise (fun a b => a.eventTime < b.eventTime)
      (DynamicAuthorCommentUpdator.update 200 5 [exCm1, exCm140] none).2 :=
  c6_chronological_delivery 200 5 none [exDA110, exDB90] none [exCm1, exCm140]
    (by decide) (by decide)

/-- Claim C7 (confirmed): whenever a tick collects at least one new item, the
reassigned high-water mark (`new_dynamics[0]`, resp.
`new_comment_replies[0][0]`) has event time strictly above the previous
mark's, or the previous mark was `None` — for both the member-feed Updator and
the reply Updator cited by the claim. -/
theorem c7_mark_monotonicity (now dynMid : Int)
    (latestD : Option Dynamic) (feedD : List Dynamic)
    (latestC : Option Reply) (crf : Reply → List Reply) (feedC : List Reply)
    (hD : (DynamicUpdator.walk now latestD feedD).1 ≠ [])
    (hC : CommentAuthorReplyUpdator.walk now dynMid latestC crf feedC ≠ []) :
    (∃ d, (DynamicUpdator.update now feedD latestD).1 = some d
       ∧ ∀ m, latestD = some m → m.event_unix_time < d.event_unix_time)
    ∧ (∃ c, (CommentAuthorReplyUpdator.update now dynMid feedC crf latestC).1 = some c
       ∧ ∀ m, latestC = some m → m.event_unix_time < c.event_unix_time) := by
  constructor
  · rcases hw : (DynamicUpdator.walk now latestD feedD).1 with _ | ⟨d, ds⟩
    · exact absurd hw hD
    · refine ⟨d, ?_, ?_⟩
      · simp [DynamicUpdator.update, hw]
      · intro m hm
        have hnew : DynamicUpdator.isNewDynamic latestD d = true :=
          walkD_isNew_of_mem now latestD feedD d (hw ▸ List.mem_cons_self d ds)
        rw [hm] at hnew
        simpa [DynamicUpdator.isNewDynamic] using hnew
  · rcases hw : CommentAuthorReplyUpdator.walk now dynMid latestC crf feedC with _ | ⟨p, ps⟩
    · exact absurd hw hC
    · refine ⟨p.1, ?_, ?_⟩
      · simp [CommentAuthorReplyUpdator.update, hw]
      · intro m hm
        have hnew : isNewComment latestC p.1 = true :=
          walkCAR_isNew_of_mem now dynMid latestC crf feedC p (hw ▸ List.mem_cons_self p ps)
        rw [hm] at hnew
        simpa [isNewComment] using hnew

/-- Claim C7, witness at a concrete tick that collects one dynamic and one
comment-reply pair. -/
theorem c7_mark_monotonicity_witness :
    (∃ d, (DynamicUpdator.update 200 [exDA110] (some exM100)).1 = some d
       ∧ ∀ m, some exM100 = some m → m.event_unix_time < d.event_unix_time)
    ∧ (∃ c, (CommentAuthorReplyUpdator.update 200 5 [exC3] exCrf (some exCm140)).1 = some c
       ∧ ∀ m, some exCm140 = some m → m.event_unix_time < c.event_unix_time) :=
  c7_mark_monotonicity 200 5 (some exM100) [exDA110] (some exCm140) exCrf [exC3]
    (by decide) (by decide)

/-- Claim C5, amended (corrected): the novelty test is exactly "mark is null
or the item's event time strictly exceeds the mark's", and the comment walk
stops consuming the feed at the first non-new item; `DynamicUpdator`'s walk,
however, has no such stop — when every item is inside the lookback window it
consumes the entire feed, merely skipping non-new items. -/
theorem c5_novelty_test_and_stop (now dynMid : Int)
    (latestD : Option Dynamic) (d : Dynamic)
    (latestC : Option Reply) (b c : Reply) (cs : List Reply) (feedD : List Dynamic)
    (hall : ∀ x ∈ feedD, now - x.event_unix_time < 30 * 60)
    (hstale : isNewComment latestC c = false) :
    (DynamicUpdator.isNewDynamic latestD d = true
      ↔ latestD = none ∨ ∃ m, latestD = some m ∧ m.event_unix_time < d.event_unix_time)
    ∧ (isNewComment latestC b = true
      ↔ latestC = none ∨ ∃ m, latestC = some m ∧ m.event_unix_time < b.event_unix_time)
    ∧ DynamicAuthorCommentUpdator.walk now dynMid latestC (c :: cs) = ([], 1)
    ∧ (DynamicUpdator.walk now latestD feedD).2 = feedD.length := by
  refine ⟨?_, ?_, ?_, walkD_consumes_all now latestD feedD hall⟩
  · cases latestD with
    | none => simp [DynamicUpdator.isNewDynamic]
    | some m => simp [DynamicUpdator.isNewDynamic, gt_iff_lt]
  · cases latestC with
    | none => simp [isNewComment]
    | some m => simp [isNewComment]
  · simp only [DynamicAuthorCommentUpdator.walk]
    rw [if_pos (by simp [hstale])]

/-- Claim C5, witness: concrete novelty tests, a comment walk stopping at a
stale comment, and a dynamic walk consuming a feed whose second item is not
new. -/
theorem c5_novelty_test_and_stop_witness :
    (DynamicUpdator.isNewDynamic (some exM100) exDA110 = true
      ↔ some exM100 = none
        ∨ ∃ m, some exM100 = some m ∧ m.event_unix_time < exDA110.event_unix_time)
    ∧ (isNewComment (some exCm140) exC3 = true
      ↔ some exCm140 = none
        ∨ ∃ m, some exCm140 = some m ∧ m.event_unix_time < exC3.event_unix_time)
    ∧ DynamicAuthorCommentUpdator.walk 200 5 (some exCm140) (exCm20 :: []) = ([], 1)
    ∧ (DynamicUpdator.walk 200 (some exM100) [exDA110, exDB90]).2
        = [exDA110, exDB90].length :=
  c5_novelty_test_and_stop 200 5 (some exM100) exDA110 (some exCm140) exC3 exCm20 []
    [exDA110, exDB90] (by decide) (by decide)

/-- Claim C10 (confirmed): at the lookback boundary, an item exactly 30
minutes old stops the walk and is excluded, while an item 29 minutes 59
seconds old passes the cutoff and is collected — for the member-feed walk and
the comment walk alike (for the latter, on a new, author-matching comment). -/
theorem c10_lookback_boundary (now dynMid : Int)
    (latestD : Option Dynamic) (d e : Dynamic) (ds es : List Dynamic)
    (latestC : Option Reply) (c f : Reply) (cs fs : List Reply)
    (hd : now - d.event_unix_time = 30 * 60)
    (he : now - e.event_unix_time = 30 * 60 - 1)
    (henew : DynamicUpdator.isNewDynamic latestD e = true)
    (hc : now - c.event_unix_time = 30 * 60)
    (hcnew : isNewComment latestC c = true)
    (hf : now - f.event_unix_time = 30 * 60 - 1)
    (hfnew : isNewComment latestC f = true)
    (hfmid : f.mid = dynMid) :
    DynamicUpdator.walk now latestD (d :: ds) = ([], 1)
    ∧ e ∈ (DynamicUpdator.walk now latestD (e :: es)).1
    ∧ DynamicAuthorCommentUpdator.walk now dynMid latestC (c :: cs) = ([], 1)
    ∧ f ∈ (DynamicAuthorCommentUpdator.walk now dynMid latestC (f :: fs)).1 := by
  refine ⟨?_, ?_, ?_, ?_⟩
  · simp only [DynamicUpdator.walk]
    rw [if_pos (by omega)]
  · simp only [DynamicUpdator.walk]
    rw [if_neg (by omega), if_pos henew]
    exact List.mem_cons_self _ _
  · simp only [DynamicAuthorCommentUpdator.walk]
    rw [if_neg (by simp [hcnew]), if_pos (by omega)]
  · simp only [DynamicAuthorCommentUpdator.walk]
    rw [if_neg (by simp [hfnew]), if_neg (by omega), if_pos (by simp [hfmid])]
    exact List.mem_cons_self _ _

/-- Claim C10, witness at tick time 1820 with items at times 20 (exactly 30
minutes old) and 21 (29m59s old). -/
theorem c10_lookback_boundary_witness :
    DynamicUpdator.walk 1820 none ([exD20]) = ([], 1)
    ∧ exD21 ∈ (DynamicUpdator.walk 1820 none ([exD21])).1
    ∧ DynamicAuthorCommentUpdator.walk 1820 5 none ([exCm20]) = ([], 1)
    ∧ exCm21 ∈ (DynamicAuthorCommentUpdator.walk 1820 5 none ([exCm21])).1 :=
  c10_lookback_boundary 1820 5 none exD20 exD21 [] [] none exCm20 exCm21 [] []
    (by decide) (by decide) (by decide) (by decide) (by decide) (by decide) (by decide)
    (by decide)

/-- A fetch error in the member feed, reached before any stop condition,
aborts the whole `DynamicUpdator` walk with that error. -/
theorem walkE_error (now : Int) (latest : Option Dynamic) (e : String)
    (rest : List (Except String Dynamic)) :
    ∀ pre : List Dynamic, (∀ x ∈ pre, now - x.event_unix_time < 30 * 60) →
      DynamicUpdator.walkE now latest (pre.map Except.ok ++ Except.error e :: rest)
        = .error e := by
  intro pre
  induction pre with
  | nil => intro _; simp [DynamicUpdator.walkE]
  | cons a as ih =>
    intro h
    have h1 : ¬ now - a.event_unix_time ≥ 30 * 60 := by
      have := h a (List.mem_cons_self a as)
      omega
    simp only [List.map_cons, List.cons_append, DynamicUpdator.walkE, List.append_eq]
    rw [if_neg h1, ih (fun x hx => h x (List.mem_cons_of_mem a hx))]
    rfl

/-- Claim C8, amended (corrected): a fetch exception raised while pulling the
member feed propagates uncaught — the tick evaluates to that error, producing
no new mark and no deliveries, so the next tick retries from the same mark —
but an API-level failure inside `ApiClient.comment_replies` (non-zero code)
is swallowed: the reply stream silently ends instead of raising, so such
failures do not fail the enclosing tick. -/
theorem c8_failure_semantics (now : Int) (latest : Option Dynamic) (e : String)
    (pre : List Dynamic) (rest : List (Except String Dynamic))
    (p : ApiClient.ReplyPage) (ps : List ApiClient.ReplyPage)
    (hpre : ∀ x ∈ pre, now - x.event_unix_time < 30 * 60)
    (hcode : p.code ≠ 0) :
    DynamicUpdator.updateE now (pre.map Except.ok ++ Except.error e :: rest) latest
      = .error e
    ∧ ApiClient.comment_replies (p :: ps) = [] := by
  constructor
  · unfold DynamicUpdator.updateE
    rw [walkE_error now latest e rest pre hpre]
    rfl
  · simp only [ApiClient.comment_replies]
    rw [if_pos hcode]

/-- Claim C8, witness: a connection error after one fresh item fails the tick,
and a page with API code -352 ends the reply stream silently. -/
theorem c8_failure_semantics_witness :
    DynamicUpdator.updateE 200
      ([exDA110].map Except.ok ++ Except.error "ConnectionError" :: []) (some exM100)
      = .error "ConnectionError"
    ∧ ApiClient.comment_replies (⟨-352, none⟩ :: []) = [] :=
  c8_failure_semantics 200 (some exM100) "ConnectionError" [exDA110] [] ⟨-352, none⟩ []
    (by decide) (by decide)

/-- Under a newest-first feed, the `DynamicUpdator` walk collects exactly the
in-window items that pass the novelty test, in feed order: the cutoff `break`
only discards items the lookback bound rejects anyway. -/
theorem walkD_eq_filter (now : Int) (latest : Option Dynamic) :
    ∀ l : List Dynamic, newestFirst l →
      (DynamicUpdator.walk now latest l).1
        = l.filter (fun x => decide (now - x.event_unix_time < 30 * 60)
            && DynamicUpdator.isNewDynamic latest x) := by
  intro l
  induction l with
  | nil => intro _; simp [DynamicUpdator.walk]
  | cons a as ih =>
    intro h
    rw [newestFirst, List.pairwise_cons] at h
    obtain ⟨ha, has⟩ := h
    simp only [DynamicUpdator.walk]
    by_cases h1 : now - a.event_unix_time ≥ 30 * 60
    · rw [if_pos h1]
      refine Eq.symm (List.filter_eq_nil_iff.2 fun b hb => ?_)
      have hbt : 30 * 60 ≤ now - b.event_unix_time := by
        rcases List.mem_cons.1 hb with rfl | hbs
        · omega
        · have := ha b hbs
          omega
      intro hcontra
      rw [Bool.and_eq_true, decide_eq_true_eq] at hcontra
      obtain ⟨h2, _⟩ := hcontra
      omega
    · rw [if_neg h1]
      have hft : now - a.event_unix_time < 30 * 60 := by omega
      by_cases h2 : DynamicUpdator.isNewDynamic latest a = true
      · rw [if_pos h2]
        show a :: (DynamicUpdator.walk now latest as).1 = _
        rw [ih has, List.filter_cons_of_pos (by simp [h2]; omega)]
      · rw [if_neg h2]
        have h2f : DynamicUpdator.isNewDynamic latest a = false := by
          simpa using h2
        show (DynamicUpdator.walk now latest as).1 = _
        rw [ih has, List.filter_cons_of_neg (by simp [h2f])]

/-- Membership in a tick's deliveries comes from membership in the walk's
collection. -/
theorem mem_walkD_of_mem_update (now : Int) (latest : Option Dynamic) (feed : List Dynamic)
    (d : Dynamic) (hd : Msg.dynamic d ∈ (DynamicUpdator.update now feed latest).2) :
    d ∈ (DynamicUpdator.walk now latest feed).1 := by
  simp only [DynamicUpdator.update, List.mem_map, List.mem_reverse, Msg.dynamic.injEq,
    exists_eq_right] at hd
  exact hd

/-- Characterization of a single tick's deliveries over a newest-first feed:
a dynamic is handed to the sink iff it is in the feed, new relative to the
mark at tick start, and within the 30-minute lookback window. -/
theorem mem_updateD_iff (now : Int) (latest : Option Dynamic) (feed : List Dynamic)
    (hs : newestFirst feed) (d : Dynamic) :
    Msg.dynamic d ∈ (DynamicUpdator.update now feed latest).2
      ↔ d ∈ feed ∧ DynamicUpdator.isNewDynamic latest d = true
          ∧ now - d.event_unix_time < 30 * 60 := by
  simp only [DynamicUpdator.update, List.mem_map, List.mem_reverse, Msg.dynamic.injEq,
    exists_eq_right]
  rw [walkD_eq_filter now latest feed hs, List.mem_filter, Bool.and_eq_true,
    decide_eq_true_eq]
  tauto

/-- After a tick that delivered `d`, the reassigned mark's event time is at
least `d`'s (the mark becomes the newest collected item). -/
theorem updateD_mark_dominates (now : Int) (latest : Option Dynamic) (feed : List Dynamic)
    (hs : newestFirst feed) (d : Dynamic)
    (hd : Msg.dynamic d ∈ (DynamicUpdator.update now feed latest).2) :
    ∃ m, (DynamicUpdator.update now feed latest).1 = some m
      ∧ d.event_unix_time ≤ m.event_unix_time := by
  have hdw := mem_walkD_of_mem_update now latest feed d hd
  rcases hw : (DynamicUpdator.walk now latest feed).1 with _ | ⟨h0, rest⟩
  · rw [hw] at hdw
    simp at hdw
  · refine ⟨h0, by simp [DynamicUpdator.update, hw], ?_⟩
    have hp : List.Pairwise (fun a b : Dynamic => b.event_unix_time < a.event_unix_time)
        (DynamicUpdator.walk now latest feed).1 :=
      List.Pairwise.sublist (walkD_sublist now latest feed) hs
    rw [hw, List.pairwise_cons] at hp
    rw [hw] at hdw
    rcases List.mem_cons.1 hdw with heq | hmem
    · rw [heq]
    · exact le_of_lt (hp.1 d hmem)

/-- Once the mark dominates an item's event time, it still does after any
further tick: the mark never moves down. -/
theorem updateD_dom_mono (now : Int) (feed : List Dynamic) (latest : Option Dynamic)
    (d m : Dynamic) (hm : latest = some m) (hd : d.event_unix_time ≤ m.event_unix_time) :
    ∃ m', (DynamicUpdator.update now feed latest).1 = some m'
      ∧ d.event_unix_time ≤ m'.event_unix_time := by
  subst hm
  rcases hw : (DynamicUpdator.walk now (some m) feed).1 with _ | ⟨h0, rest⟩
  · exact ⟨m, by simp [DynamicUpdator.update, hw], hd⟩
  · have hnew : DynamicUpdator.isNewDynamic (some m) h0 = true :=
      walkD_isNew_of_mem now (some m) feed h0 (hw ▸ List.mem_cons_self h0 rest)
    have hlt : m.event_unix_time < h0.event_unix_time := by
      simpa [DynamicUpdator.isNewDynamic] using hnew
    exact ⟨h0, by simp [DynamicUpdator.update, hw], by omega⟩

/-- An item at or below the mark is never handed to the sink by a tick. -/
theorem updateD_not_delivered_of_dom (now : Int) (feed : List Dynamic)
    (latest : Option Dynamic) (d m : Dynamic) (hm : latest = some m)
    (hd : d.event_unix_time ≤ m.event_unix_time) :
    Msg.dynamic d ∉ (DynamicUpdator.update now feed latest).2 := by
  intro hmem
  have hnew := walkD_isNew_of_mem now latest feed d
    (mem_walkD_of_mem_update now latest feed d hmem)
  rw [hm] at hnew
  have : m.event_unix_time < d.event_unix_time := by
    simpa [DynamicUpdator.isNewDynamic] using hnew
  omega

/-- An item at or below the mark is never delivered anywhere in a whole run. -/
theorem runD_not_delivered_of_dom (feed : List Dynamic) (d : Dynamic) :
    ∀ (nows : List Int) (latest : Option Dynamic) (m : Dynamic),
      latest = some m → d.event_unix_time ≤ m.event_unix_time →
      Msg.dynamic d ∉ (DynamicUpdator.run feed latest nows).2 := by
  intro nows
  induction nows with
  | nil =>
    intro latest m hm hd
    simp [DynamicUpdator.run]
  | cons now nows ih =>
    intro latest m hm hd hmem
    simp only [DynamicUpdator.run, List.mem_append] at hmem
    rcases hmem with h | h
    · exact updateD_not_delivered_of_dom now feed latest d m hm hd h
    · obtain ⟨m', hm', hd'⟩ := updateD_dom_mono now feed latest d m hm hd
      exact ih (DynamicUpdator.update now feed latest).1 m' hm' hd' h

/-- A single tick over a newest-first feed delivers any given dynamic at most
once. -/
theorem updateD_count_le_one (now : Int) (latest : Option Dynamic) (feed : List Dynamic)
    (hs : newestFirst feed) (d : Dynamic) :
    ((DynamicUpdator.update now feed latest).2).count (Msg.dynamic d) ≤ 1 := by
  have hinj : Function.Injective Msg.dynamic := fun a b h => by injection h
  have hfeed : feed.Nodup :=
    List.Pairwise.imp (fun hab heq => by rw [heq] at hab; exact absurd hab (lt_irrefl _)) hs
  have hnd : (DynamicUpdator.walk now latest feed).1.Nodup :=
    List.Nodup.sublist (walkD_sublist now latest feed) hfeed
  simp only [DynamicUpdator.update]
  rw [List.count_map_of_injective _ _ hinj, List.count_reverse]
  exact List.nodup_iff_count_le_one.1 hnd d

/-- A whole run over a newest-first feed delivers any given dynamic at most
once: once delivered, the item is dominated by the mark forever after. -/
theorem runD_count_le_one (feed : List Dynamic) (hs : newestFirst feed) (d : Dynamic) :
    ∀ (nows : List Int) (latest : Option Dynamic),
      ((DynamicUpdator.run feed latest nows).2).count (Msg.dynamic d) ≤ 1 := by
  intro nows
  induction nows with
  | nil =>
    intro latest
    simp [DynamicUpdator.run]
  | cons now nows ih =>
    intro latest
    simp only [DynamicUpdator.run, List.count_append]
    by_cases hmem : Msg.dynamic d ∈ (DynamicUpdator.update now feed latest).2
    · have h1 := updateD_count_le_one now latest feed hs d
      obtain ⟨m, hm, hd⟩ := updateD_mark_dominates now latest feed hs d hmem
      have h0 : ((DynamicUpdator.run feed (DynamicUpdator.update now feed latest).1
          nows).2).count (Msg.dynamic d) = 0 :=
        List.count_eq_zero.2 (runD_not_delivered_of_dom feed d nows _ m hm hd)
      omega
    · have h0 : ((DynamicUpdator.update now feed latest).2).count (Msg.dynamic d) = 0 :=
        List.count_eq_zero.2 hmem
      have h1 := ih (DynamicUpdator.update now feed latest).1
      omega

/-- A run over concatenated tick lists is the run over the first list followed
by a run over the second, started from the intermediate mark. -/
theorem runD_append (feed : List Dynamic) (ns₂ : List Int) :
    ∀ (ns₁ : List Int) (latest : Option Dynamic),
      DynamicUpdator.run feed latest (ns₁ ++ ns₂)
        = ((DynamicUpdator.run feed (DynamicUpdator.run feed latest ns₁).1 ns₂).1,
           (DynamicUpdator.run feed latest ns₁).2
             ++ (DynamicUpdator.run feed (DynamicUpdator.run feed latest ns₁).1 ns₂).2) := by
  intro ns₁
  induction ns₁ with
  | nil =>
    intro latest
    simp [DynamicUpdator.run]
  | cons n ns ih =>
    intro latest
    simp only [List.cons_append, DynamicUpdator.run, List.append_eq,
      ih (DynamicUpdator.update n feed latest).1, List.append_assoc]

/-- Claim C3, amended (corrected): over a fixed, deterministic newest-first
feed, (i) each dynamic is delivered at most once across a whole run of
`DynamicUpdator` ticks; (ii) a tick delivers a dynamic iff, at that tick's
start, the dynamic is in the feed, new relative to the high-water mark, and
inside the 30-minute lookback window; (iii) a dynamic satisfying those
conditions at some tick is delivered exactly once across the whole run; and
(iv) a dynamic at or below the mark at a tick's start is never delivered by
that tick.  (The unamended claim fails for new items at or beyond the
lookback bound, which are delivered zero times.) -/
theorem c3_no_duplicate_delivery (feed : List Dynamic) (s : Option Dynamic) (nows : List Int)
    (hs : newestFirst feed) :
    (∀ d : Dynamic, ((DynamicUpdator.run feed s nows).2).count (Msg.dynamic d) ≤ 1)
    ∧ (∀ pre now post, nows = pre ++ now :: post →
        ∀ d : Dynamic,
          Msg.dynamic d ∈ (DynamicUpdator.update now feed (DynamicUpdator.run feed s pre).1).2
            ↔ d ∈ feed
              ∧ DynamicUpdator.isNewDynamic (DynamicUpdator.run feed s pre).1 d = true
              ∧ now - d.event_unix_time < 30 * 60)
    ∧ (∀ pre now post, nows = pre ++ now :: post →
        ∀ d : Dynamic, d ∈ feed
          → DynamicUpdator.isNewDynamic (DynamicUpdator.run feed s pre).1 d = true
          → now - d.event_unix_time < 30 * 60
          → ((DynamicUpdator.run feed s nows).2).count (Msg.dynamic d) = 1)
    ∧ (∀ pre now post, nows = pre ++ now :: post →
        ∀ d m : Dynamic, (DynamicUpdator.run feed s pre).1 = some m
          → d.event_unix_time ≤ m.event_unix_time
          → Msg.dynamic d ∉ (DynamicUpdator.update now feed
              (DynamicUpdator.run feed s pre).1).2) := by
  refine ⟨fun d => runD_count_le_one feed hs d nows s, ?_, ?_, ?_⟩
  · intro pre now post _ d
    exact mem_updateD_iff now (DynamicUpdator.run feed s pre).1 feed hs d
  · intro pre now post heq d hdf hnew hwin
    have hmem : Msg.dynamic d
        ∈ (DynamicUpdator.update now feed (DynamicUpdator.run feed s pre).1).2 :=
      (mem_updateD_iff now (DynamicUpdator.run feed s pre).1 feed hs d).2 ⟨hdf, hnew, hwin⟩
    have hle := runD_count_le_one feed hs d nows s
    have hsplit : (DynamicUpdator.run feed s nows).2
        = (DynamicUpdator.run feed s pre).2
          ++ ((DynamicUpdator.update now feed (DynamicUpdator.run feed s pre).1).2
          ++ (DynamicUpdator.run feed
              (DynamicUpdator.update now feed (DynamicUpdator.run feed s pre).1).1
              post).2) := by
      rw [heq, runD_append feed (now :: post) pre s]
      rfl
    have hpos : 0 < ((DynamicUpdator.update now feed
        (DynamicUpdator.run feed s pre).1).2).count (Msg.dynamic d) :=
      List.count_pos_iff.2 hmem
    rw [hsplit, List.count_append, List.count_append] at hle ⊢
    omega
  · intro pre now post _ d m hm hd
    exact updateD_not_delivered_of_dom now feed (DynamicUpdator.run feed s pre).1 d m hm hd

/-- Claim C3, witness: over the sorted feed `[exDA110, exDB90]` with an empty
initial mark and ticks at times 200 and 230, the item `exDA110` qualifies at
the first tick and is delivered exactly once across the run. -/
theorem c3_no_duplicate_delivery_witness :
    newestFirst [exDA110, exDB90]
    ∧ ((DynamicUpdator.run [exDA110, exDB90] none [200, 230]).2).count
        (Msg.dynamic exDA110) = 1 :=
  ⟨by decide,
   (c3_no_duplicate_delivery [exDA110, exDB90] none [200, 230] (by decide)).2.2.1
     [] 200 [230] rfl exDA110 (by decide) (by decide) (by decide)⟩

end Gizmo
